import Mathlib

/-!
Verification of the turn-resolution core of the `ai-murder-mystery` backend.

The Python sources under `backend/game/` are shallowly embedded:

* Python `dict[str, V]` becomes an association list `List (String × V)` with
  `dictGet` (first matching key, as `dict.get`) and `dictSet`
  (in-place update of the first matching entry, append when absent — the
  insertion-order semantics of a Python dict).
* Mutating methods become pure functions returning the updated structure.
* The fallible LLM decision oracle becomes an explicit function argument
  returning `Except Unit Decision`; a raised exception, a timeout and an
  unparsable/ schema-invalid response are all the `Except.error` case, which
  the source catches at the innermost scope of `_resolve_single_npc`.
* `asyncio.gather` over the location groups is linearised in group-list
  order; within one group the source is already strictly sequential.
-/

set_option autoImplicit false

namespace MurderMystery

/-- `dict.get(k)`: the value of the first entry whose key is `k`. -/
def dictGet {β : Type} (k : String) : List (String × β) → Option β
  | [] => none
  | p :: rest => if p.1 = k then some p.2 else dictGet k rest

/-- `dict[k] = v`: replace the first entry with key `k`, append when absent. -/
def dictSet {β : Type} (k : String) (v : β) : List (String × β) → List (String × β)
  | [] => [(k, v)]
  | p :: rest => if p.1 = k then (k, v) :: rest else p :: dictSet k v rest

theorem dictGet_dictSet_self {β : Type} (k : String) (v : β) (d : List (String × β)) :
    dictGet k (dictSet k v d) = some v := by
  induction d with
  | nil => simp [dictGet, dictSet]
  | cons p rest ih =>
    by_cases h : p.1 = k
    · simp [dictGet, dictSet, h]
    · simp [dictGet, dictSet, h, ih]

theorem dictGet_dictSet_ne {β : Type} {k k' : String} (v : β) (d : List (String × β))
    (h : k' ≠ k) : dictGet k' (dictSet k v d) = dictGet k' d := by
  induction d with
  | nil =>
    simp only [dictSet, dictGet]
    rw [if_neg (fun hh => h hh.symm)]
  | cons p rest ih =>
    obtain ⟨a, b⟩ := p
    by_cases hp : a = k
    · subst hp
      simp only [dictSet, if_pos rfl, dictGet]
      rw [if_neg (fun hh => h hh.symm), if_neg (fun hh => h hh.symm)]
    · simp only [dictSet, if_neg hp, dictGet]
      by_cases hp' : a = k'
      · rw [if_pos hp', if_pos hp']
      · rw [if_neg hp', if_neg hp']
        exact ih

theorem dictGet_mem {β : Type} {k : String} {v : β} {d : List (String × β)}
    (h : dictGet k d = some v) : (k, v) ∈ d := by
  induction d with
  | nil => simp [dictGet] at h
  | cons p rest ih =>
    obtain ⟨a, b⟩ := p
    by_cases hp : a = k
    · simp only [dictGet, if_pos hp] at h
      obtain rfl : b = v := Option.some.inj h
      subst hp
      exact List.mem_cons_self _ _
    · simp only [dictGet, if_neg hp] at h
      exact List.mem_cons_of_mem _ (ih h)

theorem dictGet_isSome_of_mem {β : Type} {k : String} {v : β} {d : List (String × β)}
    (h : (k, v) ∈ d) : (dictGet k d).isSome := by
  induction d with
  | nil => simp at h
  | cons p rest ih =>
    obtain ⟨a, b⟩ := p
    by_cases hp : a = k
    · simp [dictGet, hp]
    · simp only [dictGet, if_neg hp]
      rcases List.mem_cons.1 h with h1 | h2
      · exact absurd (congrArg Prod.fst h1.symm) hp
      · exact ih h2

/-- With pairwise-distinct keys, membership pins down `dictGet`. -/
theorem dictGet_eq_of_mem_nodup {β : Type} {k : String} {v : β} {d : List (String × β)}
    (hnd : (d.map Prod.fst).Nodup) (h : (k, v) ∈ d) : dictGet k d = some v := by
  induction d with
  | nil => simp at h
  | cons p rest ih =>
    simp only [List.map_cons, List.nodup_cons] at hnd
    rcases List.mem_cons.1 h with h1 | h2
    · rw [← h1]
      simp [dictGet]
    · have hne : p.1 ≠ k := by
        intro hk
        exact hnd.1 (by
          subst hk
          exact List.mem_map.2 ⟨(p.1, v), h2, rfl⟩)
      simp [dictGet, hne]
      exact ih hnd.2 h2

/-! ### Location graph (`backend/game/locations.py`) -/

/-- `scenario.LocationDef` — static definition of a location. -/
structure LocationDef where
  id : String
  name : String
  description : String
  connected_to : List String
  clues_here : List String
deriving DecidableEq

/-- `locations.Location` — a location with runtime occupant state. -/
structure Location where
  definition : LocationDef
  characters_present : List String
deriving DecidableEq

/-- `LocationManager` — the `_locations` and `_character_locations` dicts. -/
structure LocationManager where
  locations : List (String × Location)
  character_locations : List (String × String)
deriving DecidableEq

namespace LocationManager

/-- `LocationManager.get_character_location`. -/
def get_character_location (m : LocationManager) (char_name : String) : Option String :=
  dictGet char_name m.character_locations

/-- `LocationManager.get_characters_at`. -/
def get_characters_at (m : LocationManager) (location_id : String) : List String :=
  match dictGet location_id m.locations with
  | some loc => loc.characters_present
  | none => []

/-- `LocationManager.get_location`. -/
def get_location (m : LocationManager) (location_id : String) : Option Location :=
  dictGet location_id m.locations

/-- The `# Remove from old location` half of `place_character`.  The
`old_loc_id and old_loc_id in self._locations` guard skips the removal when
the stored id is the empty (falsy) string or unknown; `list.remove` guarded
by a membership test is `List.erase`. -/
def remove_from_old_location (m : LocationManager) (char_name : String) :
    LocationManager :=
  match dictGet char_name m.character_locations with
  | some old_loc_id =>
    if old_loc_id ≠ "" then
      match dictGet old_loc_id m.locations with
      | some loc =>
        let loc' := { loc with characters_present := loc.characters_present.erase char_name }
        { m with locations := dictSet old_loc_id loc' m.locations }
      | none => m
    else m
  | none => m

/-- `LocationManager.place_character`: remove from the old location, then
append to the target's occupant list — but only when the target id is a
known location. -/
def place_character (m : LocationManager) (char_name location_id : String) :
    LocationManager :=
  let m1 := m.remove_from_old_location char_name
  match dictGet location_id m1.locations with
  | some loc =>
    let loc' := { loc with characters_present := loc.characters_present ++ [char_name] }
    { m1 with
      locations := dictSet location_id loc' m1.locations,
      character_locations := dictSet char_name location_id m1.character_locations }
  | none => m1

/-- `LocationManager.move_character` — returns the success flag and the
updated manager. -/
def move_character (m : LocationManager) (char_name target_location_id : String) :
    Bool × LocationManager :=
  match m.get_character_location char_name with
  | none => (true, m.place_character char_name target_location_id)
  | some current =>
    match dictGet current m.locations with
    | none => (false, m)
    | some current_loc =>
      if target_location_id ∈ current_loc.definition.connected_to then
        (true, m.place_character char_name target_location_id)
      else
        (false, m)

end LocationManager

/-- Consistency of a `LocationManager` state, as established by
`initialize_from_scenario` plus `place_character` during setup: every
occupant of a location is mapped there by `_character_locations`; occupant
lists are duplicate-free; every mapped character is an occupant of the
(known, nonempty-id) location it is mapped to. -/
def LocWF (m : LocationManager) : Prop :=
  (∀ p ∈ m.locations, ∀ c ∈ p.2.characters_present,
      dictGet c m.character_locations = some p.1) ∧
  (∀ p ∈ m.locations, p.2.characters_present.Nodup) ∧
  (∀ q ∈ m.character_locations,
      q.2 ≠ "" ∧
      ∃ loc, dictGet q.2 m.locations = some loc ∧ q.1 ∈ loc.characters_present)

instance (m : LocationManager) : Decidable (LocWF m) := by
  unfold LocWF
  infer_instance

theorem get_characters_at_of_some {m : LocationManager} {l : String} {loc : Location}
    (h : dictGet l m.locations = some loc) :
    m.get_characters_at l = loc.characters_present := by
  unfold LocationManager.get_characters_at
  rw [h]

theorem get_characters_at_of_none {m : LocationManager} {l : String}
    (h : dictGet l m.locations = none) : m.get_characters_at l = [] := by
  unfold LocationManager.get_characters_at
  rw [h]

/-- Occupant-list update used by the embedding lemmas below. -/
def Location.withChars (loc : Location) (cs : List String) : Location :=
  { loc with characters_present := cs }

theorem remove_none {m : LocationManager} {C : String}
    (hcur : dictGet C m.character_locations = none) :
    m.remove_from_old_location C = m := by
  unfold LocationManager.remove_from_old_location
  rw [hcur]

theorem remove_some {m : LocationManager} {C cur : String} {curLoc : Location}
    (hcur : dictGet C m.character_locations = some cur) (hcne : cur ≠ "")
    (hcl : dictGet cur m.locations = some curLoc) :
    (m.remove_from_old_location C).locations =
      dictSet cur (curLoc.withChars (curLoc.characters_present.erase C)) m.locations ∧
    (m.remove_from_old_location C).character_locations = m.character_locations := by
  simp only [LocationManager.remove_from_old_location, hcur, hcne, hcl, ne_eq,
    not_false_iff, if_true, Location.withChars]
  exact ⟨trivial, trivial⟩

theorem place_known {m : LocationManager} {C X : String} {xl1 : Location}
    (hX1 : dictGet X (m.remove_from_old_location C).locations = some xl1) :
    (m.place_character C X).locations =
      dictSet X (xl1.withChars (xl1.characters_present ++ [C]))
        (m.remove_from_old_location C).locations ∧
    (m.place_character C X).character_locations =
      dictSet C X (m.remove_from_old_location C).character_locations := by
  simp only [LocationManager.place_character, hX1, Location.withChars]
  exact ⟨trivial, trivial⟩

theorem place_unknown {m : LocationManager} {C X : String}
    (hX1 : dictGet X (m.remove_from_old_location C).locations = none) :
    m.place_character C X = m.remove_from_old_location C := by
  simp only [LocationManager.place_character, hX1]

/-- After `place_character C X` with `X` a known location and a consistent
state, `C` occupies `X` and only `X`. -/
theorem place_character_spec (m : LocationManager) (C X : String)
    (hwf : LocWF m) (xl : Location) (hX : dictGet X m.locations = some xl) :
    C ∈ (m.place_character C X).get_characters_at X ∧
    (∀ l, l ≠ X → C ∉ (m.place_character C X).get_characters_at l) := by
  obtain ⟨hfwd, hnodup, hback⟩ := hwf
  cases hcur : dictGet C m.character_locations with
  | none =>
    -- character not placed anywhere yet; only the append branch runs
    have hrm : m.remove_from_old_location C = m := remove_none hcur
    obtain ⟨hlocs, -⟩ := place_known (m := m) (C := C) (hrm.symm ▸ hX)
    rw [hrm] at hlocs
    constructor
    · have : dictGet X (m.place_character C X).locations =
          some (xl.withChars (xl.characters_present ++ [C])) := by
        rw [hlocs]
        exact dictGet_dictSet_self X _ m.locations
      rw [get_characters_at_of_some this]
      simp [Location.withChars]
    · intro l hl hCl
      have hget : dictGet l (m.place_character C X).locations = dictGet l m.locations := by
        rw [hlocs]
        exact dictGet_dictSet_ne _ _ hl
      cases hloc : dictGet l m.locations with
      | none =>
        rw [get_characters_at_of_none (hget.trans hloc)] at hCl
        simp at hCl
      | some loc =>
        rw [get_characters_at_of_some (hget.trans hloc)] at hCl
        have hc := hfwd (l, loc) (dictGet_mem hloc) C hCl
        rw [hcur] at hc
        exact Option.noConfusion hc
  | some cur =>
    obtain ⟨hcne, curLoc, hcl0, hCin0⟩ := hback (C, cur) (dictGet_mem hcur)
    have hcl : dictGet cur m.locations = some curLoc := hcl0
    have hCin : C ∈ curLoc.characters_present := hCin0
    obtain ⟨hrmloc, hrmchar⟩ := remove_some hcur hcne hcl
    by_cases hXc : X = cur
    · -- moving back onto the current location: erase then append
      subst hXc
      have hxl : xl = curLoc := by
        rw [hX] at hcl
        exact Option.some.inj hcl.symm |>.symm
      subst hxl
      have hget1 : dictGet X (m.remove_from_old_location C).locations =
          some (xl.withChars (xl.characters_present.erase C)) := by
        rw [hrmloc]
        exact dictGet_dictSet_self X _ m.locations
      obtain ⟨hlocs, -⟩ := place_known hget1
      constructor
      · have : dictGet X (m.place_character C X).locations =
            some ((xl.withChars (xl.characters_present.erase C)).withChars
              ((xl.withChars (xl.characters_present.erase C)).characters_present ++ [C])) := by
          rw [hlocs]
          exact dictGet_dictSet_self X _ _
        rw [get_characters_at_of_some this]
        simp [Location.withChars]
      · intro l hl hCl
        have hget : dictGet l (m.place_character C X).locations = dictGet l m.locations := by
          rw [hlocs, hrmloc]
          exact (dictGet_dictSet_ne _ _ hl).trans (dictGet_dictSet_ne _ _ hl)
        cases hloc : dictGet l m.locations with
        | none =>
          rw [get_characters_at_of_none (hget.trans hloc)] at hCl
          simp at hCl
        | some loc =>
          rw [get_characters_at_of_some (hget.trans hloc)] at hCl
          have hc := hfwd (l, loc) (dictGet_mem hloc) C hCl
          rw [hcur] at hc
          exact hl (Option.some.inj hc).symm
    · -- relocating to a different location
      have hget1 : dictGet X (m.remove_from_old_location C).locations = some xl := by
        rw [hrmloc]
        exact (dictGet_dictSet_ne _ _ hXc).trans hX
      obtain ⟨hlocs, -⟩ := place_known hget1
      constructor
      · have : dictGet X (m.place_character C X).locations =
            some (xl.withChars (xl.characters_present ++ [C])) := by
          rw [hlocs]
          exact dictGet_dictSet_self X _ _
        rw [get_characters_at_of_some this]
        simp [Location.withChars]
      · intro l hl hCl
        by_cases hlc : l = cur
        · subst hlc
          have hget : dictGet l (m.place_character C X).locations =
              some (curLoc.withChars (curLoc.characters_present.erase C)) := by
            rw [hlocs, hrmloc]
            exact (dictGet_dictSet_ne _ _ hl).trans (dictGet_dictSet_self l _ m.locations)
          rw [get_characters_at_of_some hget] at hCl
          exact (hnodup (l, curLoc) (dictGet_mem hcl)).not_mem_erase hCl
        · have hget : dictGet l (m.place_character C X).locations = dictGet l m.locations := by
            rw [hlocs, hrmloc]
            exact (dictGet_dictSet_ne _ _ hl).trans (dictGet_dictSet_ne _ _ hlc)
          cases hloc : dictGet l m.locations with
          | none =>
            rw [get_characters_at_of_none (hget.trans hloc)] at hCl
            simp at hCl
          | some loc =>
            rw [get_characters_at_of_some (hget.trans hloc)] at hCl
            have hc := hfwd (l, loc) (dictGet_mem hloc) C hCl
            rw [hcur] at hc
            exact hlc (Option.some.inj hc).symm

/-- C1: for a consistent manager and a known location `X`, a successful
`move_character C X` leaves `C` in `X`'s occupant list and in no other
location's occupant list; and whenever `C` occupies a location whose
`connected_to` set does not contain `X`, the move returns failure and
changes nothing. -/
theorem C1_move_character_contract (m : LocationManager) (C X : String)
    (hwf : LocWF m) (xl : Location) (hX : dictGet X m.locations = some xl) :
    ((m.move_character C X).1 = true →
      C ∈ (m.move_character C X).2.get_characters_at X ∧
      ∀ l, l ≠ X → C ∉ (m.move_character C X).2.get_characters_at l) ∧
    (∀ cur curLoc, m.get_character_location C = some cur →
      dictGet cur m.locations = some curLoc →
      X ∉ curLoc.definition.connected_to →
      m.move_character C X = (false, m)) := by
  constructor
  · intro hsucc
    cases hcur : m.get_character_location C with
    | none =>
      have hmv : m.move_character C X = (true, m.place_character C X) := by
        unfold LocationManager.move_character
        rw [hcur]
      rw [hmv]
      exact place_character_spec m C X hwf xl hX
    | some cur =>
      cases hcl : dictGet cur m.locations with
      | none =>
        have hmv : m.move_character C X = (false, m) := by
          unfold LocationManager.move_character
          simp only [hcur, hcl]
        rw [hmv] at hsucc
        exact absurd hsucc (by simp)
      | some curLoc =>
        by_cases hconn : X ∈ curLoc.definition.connected_to
        · have hmv : m.move_character C X = (true, m.place_character C X) := by
            unfold LocationManager.move_character
            simp only [hcur, hcl, if_pos hconn]
          rw [hmv]
          exact place_character_spec m C X hwf xl hX
        · have hmv : m.move_character C X = (false, m) := by
            unfold LocationManager.move_character
            simp only [hcur, hcl, if_neg hconn]
          rw [hmv] at hsucc
          exact absurd hsucc (by simp)
  · intro cur curLoc h1 h2 h3
    unfold LocationManager.move_character
    simp only [h1, h2, if_neg h3]

/-- C10: placing a character at an unknown location id removes them from
their current location's occupant list but leaves `_character_locations`
untouched, so position lookup and occupancy disagree. -/
theorem C10_place_character_unknown_target (m : LocationManager) (C L L0 : String)
    (hwf : LocWF m) (hL : dictGet L m.locations = none)
    (hcur : m.get_character_location C = some L0) :
    (m.place_character C L).get_character_location C = some L0 ∧
    C ∉ (m.place_character C L).get_characters_at L0 := by
  obtain ⟨hfwd, hnodup, hback⟩ := hwf
  obtain ⟨hcne, curLoc, hcl0, hCin0⟩ := hback (C, L0) (dictGet_mem hcur)
  have hcl : dictGet L0 m.locations = some curLoc := hcl0
  obtain ⟨hrmloc, hrmchar⟩ := remove_some hcur hcne hcl
  have hLne : L ≠ L0 := by
    intro h
    rw [h, hcl] at hL
    exact Option.noConfusion hL
  have hL1 : dictGet L (m.remove_from_old_location C).locations = none := by
    rw [hrmloc]
    exact (dictGet_dictSet_ne _ _ hLne).trans hL
  have hpl : m.place_character C L = m.remove_from_old_location C := place_unknown hL1
  rw [hpl]
  constructor
  · show dictGet C (m.remove_from_old_location C).character_locations = some L0
    rw [hrmchar]
    exact hcur
  · intro hCl
    have hget : dictGet L0 (m.remove_from_old_location C).locations =
        some (curLoc.withChars (curLoc.characters_present.erase C)) := by
      rw [hrmloc]
      exact dictGet_dictSet_self L0 _ m.locations
    rw [get_characters_at_of_some hget] at hCl
    exact (hnodup (L0, curLoc) (dictGet_mem hcl)).not_mem_erase hCl

/-- A two-room world with one placed character, used to witness the
location-graph theorems. -/
def locDemo : LocationManager :=
  { locations :=
      [("hall", { definition := { id := "hall", name := "Hall", description := "",
                                  connected_to := ["study"], clues_here := [] },
                  characters_present := ["alice"] }),
       ("study", { definition := { id := "study", name := "Study", description := "",
                                   connected_to := ["hall"], clues_here := [] },
                   characters_present := [] })],
    character_locations := [("alice", "hall")] }

/-- Witness for C1 at the concrete manager `locDemo`. -/
theorem C1_move_character_contract_witness :
    LocWF locDemo ∧
    (((locDemo.move_character "alice" "study").1 = true →
      "alice" ∈ (locDemo.move_character "alice" "study").2.get_characters_at "study" ∧
      ∀ l, l ≠ "study" →
        "alice" ∉ (locDemo.move_character "alice" "study").2.get_characters_at l) ∧
    (∀ cur curLoc, locDemo.get_character_location "alice" = some cur →
      dictGet cur locDemo.locations = some curLoc →
      "study" ∉ curLoc.definition.connected_to →
      locDemo.move_character "alice" "study" = (false, locDemo))) :=
  ⟨by decide,
   C1_move_character_contract locDemo "alice" "study" (by decide)
     { definition := { id := "study", name := "Study", description := "",
                       connected_to := ["hall"], clues_here := [] },
       characters_present := [] }
     (by decide)⟩

/-- Witness for C10 at the concrete manager `locDemo` and unknown id
`"attic"`. -/
theorem C10_place_character_unknown_target_witness :
    LocWF locDemo ∧ dictGet "attic" locDemo.locations = none ∧
    ((locDemo.place_character "alice" "attic").get_character_location "alice" = some "hall" ∧
     "alice" ∉ (locDemo.place_character "alice" "attic").get_characters_at "hall") :=
  ⟨by decide, by decide,
   C10_place_character_unknown_target locDemo "alice" "attic" "hall"
     (by decide) (by decide) (by decide)⟩

/-! ### Clue ledger (`backend/game/clues.py`) -/

/-- `scenario.ScenarioClue` — static clue data from the scenario. -/
structure ScenarioClue where
  id : String
  description : String
  points_to : String
  difficulty : String
  found_at : String
  clue_type : String
deriving DecidableEq

/-- `clues.ClueState` — runtime state of a clue. -/
structure ClueState where
  clue : ScenarioClue
  discovered : Bool
  discovered_by : String
  discovered_at_turn : Nat
  notes : String
deriving DecidableEq

/-- `ClueManager` — the `_clues` dict. -/
structure ClueManager where
  clues : List (String × ClueState)
deriving DecidableEq

namespace ClueManager

/-- The field update performed by `discover_clue` on a fresh discovery. -/
def markDiscovered (state : ClueState) (discovered_by : String) (turn : Nat) : ClueState :=
  { state with discovered := true, discovered_by := discovered_by, discovered_at_turn := turn }

/-- `ClueManager.discover_clue` — returns the optional newly-discovered
state and the updated manager. -/
def discover_clue (m : ClueManager) (clue_id discovered_by : String) (turn : Nat) :
    Option ClueState × ClueManager :=
  match dictGet clue_id m.clues with
  | none => (none, m)
  | some state =>
    if state.discovered then
      (none, m)
    else
      let state' := markDiscovered state discovered_by turn
      (some state', { m with clues := dictSet clue_id state' m.clues })

/-- `ClueManager.get_clues_at_location` — undiscovered clues bound to a
location (iteration over `self._clues.values()`). -/
def get_clues_at_location (m : ClueManager) (location_id : String) : List ClueState :=
  (m.clues.map Prod.snd).filter
    (fun c => c.clue.found_at == location_id && !c.discovered)

/-- `ClueManager.get_clues_from_npc` — undiscovered clues bound to an NPC. -/
def get_clues_from_npc (m : ClueManager) (npc_name : String) : List ClueState :=
  (m.clues.map Prod.snd).filter
    (fun c => c.clue.found_at == npc_name && !c.discovered)

/-- `ClueManager.get_clue`. -/
def get_clue (m : ClueManager) (clue_id : String) : Option ClueState :=
  dictGet clue_id m.clues

end ClueManager

/-- C6: `discover_clue` is idempotent — the first call on a known
undiscovered clue returns the updated state (discovered, by, turn); a
repeated call on the same id returns `none` and changes nothing, and a call
with an unknown id returns `none` and changes nothing. -/
theorem C6_discover_clue_idempotent (m : ClueManager) (K by1 by2 : String)
    (t1 t2 : Nat) (st : ClueState) (hK : dictGet K m.clues = some st)
    (hund : st.discovered = false) :
    (∃ st', m.discover_clue K by1 t1 =
        (some st', { m with clues := dictSet K st' m.clues }) ∧
      st'.discovered = true ∧ st'.discovered_by = by1 ∧ st'.discovered_at_turn = t1) ∧
    ((m.discover_clue K by1 t1).2.discover_clue K by2 t2 =
      (none, (m.discover_clue K by1 t1).2)) ∧
    (∀ m0 : ClueManager, ∀ j : String, dictGet j m0.clues = none →
      m0.discover_clue j by2 t2 = (none, m0)) := by
  have hd : m.discover_clue K by1 t1 =
      (some (ClueManager.markDiscovered st by1 t1),
       { m with clues := dictSet K (ClueManager.markDiscovered st by1 t1) m.clues }) := by
    unfold ClueManager.discover_clue
    simp only [hK, hund]
    rfl
  refine ⟨⟨_, hd, rfl, rfl, rfl⟩, ?_, ?_⟩
  · rw [hd]
    unfold ClueManager.discover_clue
    simp [dictGet_dictSet_self, ClueManager.markDiscovered]
  · intro m0 j hj
    unfold ClueManager.discover_clue
    rw [hj]

/-- Key/identity consistency of the clue dict, as set up by
`initialize_from_scenario` (`{clue.id: ClueState(clue=clue)}`): keys are
pairwise distinct and each entry is keyed by its own clue id. -/
def ClueWF (m : ClueManager) : Prop :=
  (m.clues.map Prod.fst).Nodup ∧ ∀ p ∈ m.clues, p.2.clue.id = p.1

instance (m : ClueManager) : Decidable (ClueWF m) := by
  unfold ClueWF
  infer_instance

theorem mem_dictSet {β : Type} {p : String × β} {k : String} {v : β}
    {d : List (String × β)} (h : p ∈ dictSet k v d) : p = (k, v) ∨ p ∈ d := by
  induction d with
  | nil =>
    simp [dictSet] at h
    exact Or.inl h
  | cons q rest ih =>
    by_cases hq : q.1 = k
    · simp only [dictSet, if_pos hq] at h
      rcases List.mem_cons.1 h with h1 | h2
      · exact Or.inl h1
      · exact Or.inr (List.mem_cons_of_mem _ h2)
    · simp only [dictSet, if_neg hq] at h
      rcases List.mem_cons.1 h with h1 | h2
      · exact Or.inr (h1 ▸ List.mem_cons_self _ _)
      · rcases ih h2 with h3 | h4
        · exact Or.inl h3
        · exact Or.inr (List.mem_cons_of_mem _ h4)

theorem dictSet_map_fst {β : Type} {k : String} (v : β) {d : List (String × β)}
    (h : (dictGet k d).isSome) : (dictSet k v d).map Prod.fst = d.map Prod.fst := by
  induction d with
  | nil => simp [dictGet] at h
  | cons q rest ih =>
    by_cases hq : q.1 = k
    · simp only [dictSet, if_pos hq, List.map_cons]
      rw [hq]
    · simp only [dictGet, if_neg hq] at h
      simp only [dictSet, if_neg hq, List.map_cons, ih h]

/-- `discover_clue` never touches the entry of a different id. -/
theorem discover_clue_get_ne {m : ClueManager} {j K discovered_by : String} {t : Nat}
    (h : j ≠ K) :
    dictGet K (m.discover_clue j discovered_by t).2.clues = dictGet K m.clues := by
  unfold ClueManager.discover_clue
  cases hj : dictGet j m.clues with
  | none => rfl
  | some s =>
    by_cases hs : s.discovered
    · simp only [hs, if_true]
    · simp only [hs, if_false, Bool.false_eq_true]
      exact dictGet_dictSet_ne _ _ (Ne.symm h)

/-- `discover_clue` preserves the clue-dict consistency invariant. -/
theorem discover_clue_WF {m : ClueManager} {j discovered_by : String} {t : Nat}
    (hwf : ClueWF m) : ClueWF (m.discover_clue j discovered_by t).2 := by
  unfold ClueManager.discover_clue
  cases hj : dictGet j m.clues with
  | none => exact hwf
  | some s =>
    by_cases hs : s.discovered
    · simp only [hs, if_true]
      exact hwf
    · simp only [hs, if_false, Bool.false_eq_true]
      obtain ⟨hnd, hid⟩ := hwf
      constructor
      · show ((dictSet j (ClueManager.markDiscovered s discovered_by t) m.clues).map
            Prod.fst).Nodup
        rw [dictSet_map_fst _ (by rw [hj]; rfl)]
        exact hnd
      · intro p hp
        rcases mem_dictSet hp with h1 | h2
        · subst h1
          exact hid (j, s) (dictGet_mem hj)
        · exact hid p h2

/-- A single undiscovered easy clue, used to witness C6. -/
def clueDemoSt : ClueState :=
  { clue := { id := "c1", description := "a torn letter", points_to := "bob",
              difficulty := "easy", found_at := "hall", clue_type := "physical" },
    discovered := false, discovered_by := "", discovered_at_turn := 0, notes := "" }

/-- A clue manager holding just `clueDemoSt`. -/
def clueDemo : ClueManager := { clues := [("c1", clueDemoSt)] }

/-- Witness for C6 at the concrete one-clue manager `clueDemo`. -/
theorem C6_discover_clue_idempotent_witness :
    dictGet "c1" clueDemo.clues = some clueDemoSt ∧ clueDemoSt.discovered = false ∧
    ((∃ st', clueDemo.discover_clue "c1" "player" 3 =
        (some st', { clueDemo with clues := dictSet "c1" st' clueDemo.clues }) ∧
      st'.discovered = true ∧ st'.discovered_by = "player" ∧ st'.discovered_at_turn = 3) ∧
    ((clueDemo.discover_clue "c1" "player" 3).2.discover_clue "c1" "sleuth" 5 =
      (none, (clueDemo.discover_clue "c1" "player" 3).2)) ∧
    (∀ m0 : ClueManager, ∀ j : String, dictGet j m0.clues = none →
      m0.discover_clue j "sleuth" 5 = (none, m0))) :=
  ⟨by decide, by decide,
   C6_discover_clue_idempotent clueDemo "c1" "player" "sleuth" 3 5 clueDemoSt
     (by decide) (by decide)⟩

/-! ### Reveal policy (`backend/game/turns.py`, `_handle_player_talk` and
`_handle_player_investigate`, clue-discovery part) -/

/-- The clue-reveal loop at the end of `_handle_player_talk`: over the
snapshot of the NPC's undiscovered clues, discover EASY ones, and MEDIUM
ones once the conversation history holds at least 4 entries. -/
def talk_reveal (m : ClueManager) (npc_name player_name : String)
    (turn hist_len : Nat) : ClueManager :=
  (m.get_clues_from_npc npc_name).foldl
    (fun acc c =>
      if c.clue.difficulty = "easy" ∨ (c.clue.difficulty = "medium" ∧ hist_len ≥ 4) then
        (acc.discover_clue c.clue.id player_name turn).2
      else acc) m

/-- The clue loop of `_handle_player_investigate`: over the snapshot of the
location's undiscovered clues, discover EASY ones, and MEDIUM ones when the
`random.random() > 0.4` draw (modelled by `coin`) succeeds. -/
def investigate_reveal (m : ClueManager) (location_id player_name : String)
    (turn : Nat) (coin : String → Bool) : ClueManager :=
  (m.get_clues_at_location location_id).foldl
    (fun acc c =>
      if c.clue.difficulty = "easy" then
        (acc.discover_clue c.clue.id player_name turn).2
      else if c.clue.difficulty = "medium" ∧ coin c.clue.id then
        (acc.discover_clue c.clue.id player_name turn).2
      else acc) m

/-- One player action as far as the reveal policy is concerned: a TALK to an
NPC (with the conversation-history length at reveal time) or an INVESTIGATE
of a location (with its random draws). -/
inductive RevealStep where
  | talk (npc_name : String) (hist_len turn : Nat)
  | investigate (location_id : String) (turn : Nat) (coin : String → Bool)

/-- Run a sequence of TALK/INVESTIGATE reveal passes. -/
def run_reveal_steps (player_name : String) : ClueManager → List RevealStep → ClueManager
  | m, [] => m
  | m, RevealStep.talk npc hl t :: rest =>
      run_reveal_steps player_name (talk_reveal m npc player_name t hl) rest
  | m, RevealStep.investigate loc t coin :: rest =>
      run_reveal_steps player_name (investigate_reveal m loc player_name t coin) rest

/-- In a consistent manager, any clue value whose id is `K` is the unique
`K` entry. -/
theorem snapshot_pins {m : ClueManager} {K : String} {st : ClueState}
    (hwf : ClueWF m) (hK : dictGet K m.clues = some st)
    {c : ClueState} (hc : c ∈ m.clues.map Prod.snd) (hid : c.clue.id = K) : c = st := by
  obtain ⟨p, hp, hpc⟩ := List.mem_map.1 hc
  obtain ⟨a, b⟩ := p
  have hkey : a = K := by
    have := hwf.2 (a, b) hp
    simp only at this hpc
    rw [← hid, ← hpc, this]
  subst hkey
  subst hpc
  have := dictGet_eq_of_mem_nodup hwf.1 hp
  rw [hK] at this
  exact (Option.some.inj this).symm

/-- A fold whose step either keeps the manager or discovers a non-HARD clue
by its id leaves a HARD entry untouched. -/
theorem foldl_discover_preserve {K : String} {st : ClueState}
    (g : ClueManager → ClueState → ClueManager)
    (hg : ∀ acc c, g acc c = acc ∨
      (c.clue.difficulty ≠ "hard" ∧
       ∃ b t, g acc c = (acc.discover_clue c.clue.id b t).2))
    (hhard : st.clue.difficulty = "hard") :
    ∀ cs : List ClueState, (∀ c ∈ cs, c.clue.id = K → c = st) →
      ∀ acc : ClueManager, dictGet K acc.clues = some st →
        dictGet K (cs.foldl g acc).clues = some st := by
  intro cs
  induction cs with
  | nil =>
    intro _ acc hacc
    exact hacc
  | cons c rest ih =>
    intro hcs acc hacc
    simp only [List.foldl_cons]
    apply ih (fun c' hc' => hcs c' (List.mem_cons_of_mem _ hc'))
    rcases hg acc c with h1 | ⟨hne, b, t, h2⟩
    · rw [h1]
      exact hacc
    · have hcK : c.clue.id ≠ K := by
        intro hk
        rw [hcs c (List.mem_cons_self _ _) hk] at hne
        exact hne hhard
      rw [h2, discover_clue_get_ne hcK]
      exact hacc

/-- A fold whose step either keeps the manager or is a `discover_clue`
preserves the clue-dict consistency invariant. -/
theorem foldl_discover_WF (g : ClueManager → ClueState → ClueManager)
    (hg : ∀ acc c, g acc c = acc ∨
      ∃ j b t, g acc c = (ClueManager.discover_clue acc j b t).2) :
    ∀ cs : List ClueState, ∀ acc : ClueManager, ClueWF acc → ClueWF (cs.foldl g acc) := by
  intro cs
  induction cs with
  | nil =>
    intro acc hacc
    exact hacc
  | cons c rest ih =>
    intro acc hacc
    simp only [List.foldl_cons]
    apply ih
    rcases hg acc c with h1 | ⟨j, b, t, h2⟩
    · rw [h1]
      exact hacc
    · rw [h2]
      exact discover_clue_WF hacc

theorem talk_reveal_preserves_hard {m : ClueManager} {npc player : String}
    {t hl : Nat} {K : String} {st : ClueState}
    (hwf : ClueWF m) (hK : dictGet K m.clues = some st)
    (hhard : st.clue.difficulty = "hard") :
    dictGet K (talk_reveal m npc player t hl).clues = some st ∧
    ClueWF (talk_reveal m npc player t hl) := by
  have hg : ∀ (acc : ClueManager) (c : ClueState),
      (if c.clue.difficulty = "easy" ∨ (c.clue.difficulty = "medium" ∧ hl ≥ 4) then
        (acc.discover_clue c.clue.id player t).2
      else acc) = acc ∨
      (c.clue.difficulty ≠ "hard" ∧
       ∃ b t', (if c.clue.difficulty = "easy" ∨ (c.clue.difficulty = "medium" ∧ hl ≥ 4) then
          (acc.discover_clue c.clue.id player t).2
        else acc) = (acc.discover_clue c.clue.id b t').2) := by
    intro acc c
    by_cases h : c.clue.difficulty = "easy" ∨ (c.clue.difficulty = "medium" ∧ hl ≥ 4)
    · refine Or.inr ⟨?_, player, t, by rw [if_pos h]⟩
      rcases h with he | ⟨hm, -⟩
      · rw [he]
        decide
      · rw [hm]
        decide
    · exact Or.inl (by rw [if_neg h])
  constructor
  · apply foldl_discover_preserve _ hg hhard
    · intro c hc hid
      exact snapshot_pins hwf hK (List.mem_of_mem_filter hc) hid
    · exact hK
  · apply foldl_discover_WF _ (fun acc c => (hg acc c).imp id (fun h => ⟨_, h.2⟩)) _ _ hwf

theorem investigate_reveal_preserves_hard {m : ClueManager} {loc player : String}
    {t : Nat} {coin : String → Bool} {K : String} {st : ClueState}
    (hwf : ClueWF m) (hK : dictGet K m.clues = some st)
    (hhard : st.clue.difficulty = "hard") :
    dictGet K (investigate_reveal m loc player t coin).clues = some st ∧
    ClueWF (investigate_reveal m loc player t coin) := by
  have hg : ∀ (acc : ClueManager) (c : ClueState),
      (if c.clue.difficulty = "easy" then (acc.discover_clue c.clue.id player t).2
       else if c.clue.difficulty = "medium" ∧ coin c.clue.id then
         (acc.discover_clue c.clue.id player t).2
       else acc) = acc ∨
      (c.clue.difficulty ≠ "hard" ∧
       ∃ b t', (if c.clue.difficulty = "easy" then (acc.discover_clue c.clue.id player t).2
         else if c.clue.difficulty = "medium" ∧ coin c.clue.id then
           (acc.discover_clue c.clue.id player t).2
         else acc) = (acc.discover_clue c.clue.id b t').2) := by
    intro acc c
    by_cases he : c.clue.difficulty = "easy"
    · refine Or.inr ⟨by rw [he]; decide, player, t, by rw [if_pos he]⟩
    · by_cases hm : c.clue.difficulty = "medium" ∧ coin c.clue.id
      · refine Or.inr ⟨by rw [hm.1]; decide, player, t, by rw [if_neg he, if_pos hm]⟩
      · exact Or.inl (by rw [if_neg he, if_neg hm])
  constructor
  · apply foldl_discover_preserve _ hg hhard
    · intro c hc hid
      exact snapshot_pins hwf hK (List.mem_of_mem_filter hc) hid
    · exact hK
  · apply foldl_discover_WF _ (fun acc c => (hg acc c).imp id (fun h => ⟨_, h.2⟩)) _ _ hwf

theorem run_reveal_steps_preserves_hard {K : String} {st : ClueState}
    (hhard : st.clue.difficulty = "hard") (player : String) :
    ∀ steps : List RevealStep, ∀ m : ClueManager, ClueWF m →
      dictGet K m.clues = some st →
      dictGet K (run_reveal_steps player m steps).clues = some st := by
  intro steps
  induction steps with
  | nil =>
    intro m _ hK
    exact hK
  | cons s rest ih =>
    intro m hwf hK
    cases s with
    | talk npc hl t =>
      obtain ⟨h1, h2⟩ := talk_reveal_preserves_hard hwf hK hhard
      exact ih _ h2 h1
    | investigate loc t coin =>
      obtain ⟨h1, h2⟩ := investigate_reveal_preserves_hard hwf hK hhard
      exact ih _ h2 h1

/-- C8: a HARD clue's state — in particular its `discovered` flag — is never
changed by any sequence of player TALK and INVESTIGATE actions: the reveal
policy only ever discovers EASY and MEDIUM clues. -/
theorem C8_hard_clues_never_auto_revealed (m : ClueManager) (player_name K : String)
    (steps : List RevealStep) (hwf : ClueWF m) (st : ClueState)
    (hK : dictGet K m.clues = some st) (hhard : st.clue.difficulty = "hard")
    (hund : st.discovered = false) :
    dictGet K (run_reveal_steps player_name m steps).clues = some st ∧
    st.discovered = false :=
  ⟨run_reveal_steps_preserves_hard hhard player_name steps m hwf hK, hund⟩

/-- A manager with one HARD clue and one EASY clue, used to witness C8. -/
def clueDemoHardSt : ClueState :=
  { clue := { id := "c9", description := "a coded ledger", points_to := "eve",
              difficulty := "hard", found_at := "hall", clue_type := "document" },
    discovered := false, discovered_by := "", discovered_at_turn := 0, notes := "" }

/-- Clue manager with a HARD clue next to an EASY one. -/
def clueDemoHard : ClueManager :=
  { clues := [("c1", clueDemoSt), ("c9", clueDemoHardSt)] }

/-- Witness for C8: a TALK and an INVESTIGATE (with every MEDIUM draw
succeeding) leave the HARD clue untouched. -/
theorem C8_hard_clues_never_auto_revealed_witness :
    ClueWF clueDemoHard ∧ dictGet "c9" clueDemoHard.clues = some clueDemoHardSt ∧
    clueDemoHardSt.clue.difficulty = "hard" ∧ clueDemoHardSt.discovered = false ∧
    (dictGet "c9" (run_reveal_steps "player" clueDemoHard
        [RevealStep.talk "hall" 5 1,
         RevealStep.investigate "hall" 2 (fun _ => true)]).clues = some clueDemoHardSt ∧
     clueDemoHardSt.discovered = false) :=
  ⟨by decide, by decide, by decide, by decide,
   C8_hard_clues_never_auto_revealed clueDemoHard "player" "c9"
     [RevealStep.talk "hall" 5 1, RevealStep.investigate "hall" 2 (fun _ => true)]
     (by decide) clueDemoHardSt (by decide) (by decide) (by decide)⟩

/-! ### Game state machine (`backend/game/engine.py`)

`_do_turn` and `player_accuse` are embedded on the projection of
`GameSession` they read and write: the phase, the outcome, the player's
assigned role, the scenario (present iff bound, carrying
`scenario.murder.killer`), the presence of the turn manager, and the turn
bookkeeping.  Both optional collaborators matter for the error paths:
`_do_turn` raises `RuntimeError("Game not initialized")` when
`turn_manager` is `None`, before its phase check and before any mutation;
`player_accuse` performs no phase check at all — it assigns
`state = ACCUSATION` and then reads `self.session.scenario.murder.killer`,
which raises `AttributeError` when no scenario is bound, leaving the
session stuck in ACCUSATION; with a scenario bound it always completes to
RESULTS.  Raised exceptions are the `Except.error` cases; `player_accuse`
returns the (possibly partially mutated) session alongside them. -/

/-- `engine.GameState`. -/
inductive GameState where
  | SETUP
  | SCENARIO_GEN
  | PLAYING
  | ACCUSATION
  | RESULTS
  | FINISHED
deriving DecidableEq

/-- `.value` of a `GameState`. -/
def GameState.value : GameState → String
  | .SETUP => "setup"
  | .SCENARIO_GEN => "scenario_gen"
  | .PLAYING => "playing"
  | .ACCUSATION => "accusation"
  | .RESULTS => "results"
  | .FINISHED => "finished"

/-- `engine.GameResult`. -/
inductive GameResult where
  | DETECTIVE_WINS
  | KILLER_WINS
  | TIMEOUT
  | WRONG_ACCUSATION
deriving DecidableEq

/-- `characters.CharacterRole`. -/
inductive CharacterRole where
  | DETECTIVE
  | KILLER
  | SUSPECT
  | WITNESS
  | VICTIM
  | RED_HERRING
deriving DecidableEq

/-- The fields of `engine.GameSession` read or written by `_do_turn` and
`player_accuse`: the phase, the outcome, `player.assigned_role`,
`scenario` (modelled by its `murder.killer`, `none` while unbound),
whether `turn_manager` is set (it is, from scenario binding on), and the
turn bookkeeping. -/
structure GameSession where
  state : GameState
  result : Option GameResult
  player_role : CharacterRole
  scenario_killer : Option String
  has_turn_manager : Bool
  current_turn : Nat
  max_turns : Nat
deriving DecidableEq

/-- The session-state effect of `GameEngine._do_turn`: raise
`"Game not initialized"` while `turn_manager` is `None`, reject outside
PLAYING (both before any mutation), increment the turn counter, and flip
to RESULTS/TIMEOUT once the counter reaches `max_turns`.  The delegated
`process_player_action` touches only the turn manager and `turn_history`,
none of these fields. -/
def do_turn (s : GameSession) : Except String GameSession :=
  if s.has_turn_manager = false then
    Except.error "Game not initialized"
  else if s.state ≠ GameState.PLAYING then
    Except.error ("Cannot play — game is in state: " ++ s.state.value)
  else
    let s1 := { s with current_turn := s.current_turn + 1 }
    if s1.current_turn ≥ s1.max_turns then
      Except.ok { s1 with state := GameState.RESULTS, result := some GameResult.TIMEOUT }
    else
      Except.ok s1

/-- The dictionary returned by `player_accuse` (the fields the claims are
about). -/
structure AccusationOutcome where
  outcome : String
  accused : String
  actual_killer : String
  result : GameResult
deriving DecidableEq

/-- `GameEngine.player_accuse` — sets state to ACCUSATION, then reads
`scenario.murder.killer`: with no scenario bound this raises
`AttributeError` (the session keeps the already-assigned ACCUSATION
phase); otherwise the outcome is resolved from (player role, accused,
true killer) and the session unconditionally ends in RESULTS.  There is no
phase check in the source. -/
def player_accuse (s : GameSession) (suspect_name : String) :
    GameSession × Except String AccusationOutcome :=
  let s1 := { s with state := GameState.ACCUSATION }
  match s.scenario_killer with
  | none =>
    (s1, Except.error "AttributeError: 'NoneType' object has no attribute 'murder'")
  | some actual_killer =>
    if s.player_role = CharacterRole.DETECTIVE then
      if suspect_name = actual_killer then
        ({ s1 with result := some GameResult.DETECTIVE_WINS, state := GameState.RESULTS },
         Except.ok { outcome := "correct", accused := suspect_name,
                     actual_killer := actual_killer, result := GameResult.DETECTIVE_WINS })
      else
        ({ s1 with result := some GameResult.WRONG_ACCUSATION, state := GameState.RESULTS },
         Except.ok { outcome := "wrong", accused := suspect_name,
                     actual_killer := actual_killer, result := GameResult.WRONG_ACCUSATION })
    else
      ({ s1 with result := some GameResult.KILLER_WINS, state := GameState.RESULTS },
       Except.ok { outcome := "killer_revealed", accused := suspect_name,
                   actual_killer := actual_killer, result := GameResult.KILLER_WINS })

/-- Equality of embedded raise-or-return results is decidable. -/
instance {e a : Type} [DecidableEq e] [DecidableEq a] : DecidableEq (Except e a) :=
  fun x y =>
    match x, y with
    | Except.error u, Except.error v =>
      if h : u = v then isTrue (congrArg Except.error h)
      else isFalse (fun hh => h (Except.error.inj hh))
    | Except.error _, Except.ok _ => isFalse (fun hh => Except.noConfusion hh)
    | Except.ok _, Except.error _ => isFalse (fun hh => Except.noConfusion hh)
    | Except.ok u, Except.ok v =>
      if h : u = v then isTrue (congrArg Except.ok h)
      else isFalse (fun hh => h (Except.ok.inj hh))

/-- A session in RESULTS after a timeout — reachable by playing a bound
detective game for all `max_turns` turns — used against the accuse half of
C2. -/
def sessionResults : GameSession :=
  { state := GameState.RESULTS, result := some GameResult.TIMEOUT,
    player_role := CharacterRole.DETECTIVE, scenario_killer := some "mara",
    has_turn_manager := true, current_turn := 30, max_turns := 30 }

/-- The outcome the counterexample's accusation produces. -/
def outcomeCorrectMara : AccusationOutcome :=
  { outcome := "correct", accused := "mara", actual_killer := "mara",
    result := GameResult.DETECTIVE_WINS }

/-- C2 counterexample: in the reachable timed-out RESULTS state (≠ PLAYING,
scenario bound, turn manager set) an accusation is fully processed — the
outcome is computed, the recorded TIMEOUT result is overwritten with
DETECTIVE_WINS and the session lands in RESULTS — rather than being
rejected. -/
theorem C2_accuse_not_phase_gated_counterexample :
    sessionResults.state ≠ GameState.PLAYING ∧
    (player_accuse sessionResults "mara").1.state = GameState.RESULTS ∧
    (player_accuse sessionResults "mara").1.result = some GameResult.DETECTIVE_WINS ∧
    (player_accuse sessionResults "mara").2 = Except.ok outcomeCorrectMara := by
  decide

/-- C2 (amended): whenever the state is not PLAYING, every turn-advancing
call fails with no mutation — with the invalid-phase error once the turn
manager is initialized, and with the `"Game not initialized"` error before
that; `player_accuse` however performs no phase check: with a scenario
bound it is fully processed (session driven to RESULTS with a recorded
result) in any state, and before a scenario is bound it fails with an
attribute error only after having already mutated the phase to
ACCUSATION. -/
theorem C2_phase_gating_amended (s : GameSession) (suspect : String)
    (h : s.state ≠ GameState.PLAYING) :
    (s.has_turn_manager = false → do_turn s = Except.error "Game not initialized") ∧
    (s.has_turn_manager = true →
      do_turn s = Except.error ("Cannot play — game is in state: " ++ s.state.value)) ∧
    (∀ killer, s.scenario_killer = some killer →
      (player_accuse s suspect).1.state = GameState.RESULTS ∧
      ((player_accuse s suspect).1.result).isSome ∧
      ∃ o : AccusationOutcome, (player_accuse s suspect).2 = Except.ok o) ∧
    (s.scenario_killer = none →
      (player_accuse s suspect).1.state = GameState.ACCUSATION ∧
      (player_accuse s suspect).1.result = s.result ∧
      ∃ e : String, (player_accuse s suspect).2 = Except.error e) := by
  refine ⟨?_, ?_, ?_, ?_⟩
  · intro h0
    unfold do_turn
    rw [if_pos h0]
  · intro h1
    unfold do_turn
    rw [if_neg (by rw [h1]; decide), if_pos h]
  · intro killer hk
    by_cases hd : s.player_role = CharacterRole.DETECTIVE
    · by_cases hkk : suspect = killer
      · have hacc : player_accuse s suspect =
            ({ s with state := GameState.RESULTS, result := some GameResult.DETECTIVE_WINS },
             Except.ok ⟨"correct", suspect, killer, GameResult.DETECTIVE_WINS⟩) := by
          unfold player_accuse
          simp only [hk]
          rw [if_pos hd, if_pos hkk]
        rw [hacc]
        exact ⟨rfl, rfl, _, rfl⟩
      · have hacc : player_accuse s suspect =
            ({ s with state := GameState.RESULTS, result := some GameResult.WRONG_ACCUSATION },
             Except.ok ⟨"wrong", suspect, killer, GameResult.WRONG_ACCUSATION⟩) := by
          unfold player_accuse
          simp only [hk]
          rw [if_pos hd, if_neg hkk]
        rw [hacc]
        exact ⟨rfl, rfl, _, rfl⟩
    · have hacc : player_accuse s suspect =
          ({ s with state := GameState.RESULTS, result := some GameResult.KILLER_WINS },
           Except.ok ⟨"killer_revealed", suspect, killer, GameResult.KILLER_WINS⟩) := by
        unfold player_accuse
        simp only [hk]
        rw [if_neg hd]
      rw [hacc]
      exact ⟨rfl, rfl, _, rfl⟩
  · intro hk
    have hacc : player_accuse s suspect =
        ({ s with state := GameState.ACCUSATION },
         Except.error "AttributeError: 'NoneType' object has no attribute 'murder'") := by
      unfold player_accuse
      simp only [hk]
    rw [hacc]
    exact ⟨rfl, rfl, _, rfl⟩

/-- Witness for the amended C2 at the reachable timed-out RESULTS
session. -/
theorem C2_phase_gating_amended_witness :
    sessionResults.state ≠ GameState.PLAYING ∧
    ((sessionResults.has_turn_manager = false →
      do_turn sessionResults = Except.error "Game not initialized") ∧
    (sessionResults.has_turn_manager = true →
      do_turn sessionResults =
        Except.error ("Cannot play — game is in state: " ++ sessionResults.state.value)) ∧
    (∀ killer, sessionResults.scenario_killer = some killer →
      (player_accuse sessionResults "victor").1.state = GameState.RESULTS ∧
      ((player_accuse sessionResults "victor").1.result).isSome ∧
      ∃ o : AccusationOutcome,
        (player_accuse sessionResults "victor").2 = Except.ok o) ∧
    (sessionResults.scenario_killer = none →
      (player_accuse sessionResults "victor").1.state = GameState.ACCUSATION ∧
      (player_accuse sessionResults "victor").1.result = sessionResults.result ∧
      ∃ e : String, (player_accuse sessionResults "victor").2 = Except.error e)) :=
  ⟨by decide, C2_phase_gating_amended sessionResults "victor" (by decide)⟩

/-- C5: from an initialized PLAYING session (the only states `_do_turn`
processes), a processed player action increments the turn counter by
exactly 1 (so a fresh session's first processed turn is turn 1), and the
session flips to RESULTS with result TIMEOUT exactly when the counter
reaches `max_turns`. -/
theorem C5_turn_counter_and_timeout (s : GameSession)
    (h : s.state = GameState.PLAYING) (hinit : s.has_turn_manager = true) :
    ∃ s', do_turn s = Except.ok s' ∧
      s'.current_turn = s.current_turn + 1 ∧
      (s.current_turn = 0 → s'.current_turn = 1) ∧
      ((s'.state = GameState.RESULTS ∧ s'.result = some GameResult.TIMEOUT) ↔
        s.max_turns ≤ s.current_turn + 1) ∧
      (s.current_turn < s.max_turns →
        ((s'.state = GameState.RESULTS ∧ s'.result = some GameResult.TIMEOUT) ↔
          s'.current_turn = s.max_turns)) := by
  have hne : ¬s.state ≠ GameState.PLAYING := by
    rw [h]
    exact fun hh => hh rfl
  have hinit' : ¬s.has_turn_manager = false := by
    rw [hinit]
    decide
  unfold do_turn
  rw [if_neg hinit', if_neg hne]
  by_cases htime : s.current_turn + 1 ≥ s.max_turns
  · refine ⟨_, by rw [if_pos htime], rfl, fun h0 => by simp [h0], ?_, ?_⟩
    · exact ⟨fun _ => htime, fun _ => ⟨rfl, rfl⟩⟩
    · intro hlt
      constructor
      · intro _
        show s.current_turn + 1 = s.max_turns
        omega
      · intro _
        exact ⟨rfl, rfl⟩
  · refine ⟨_, by rw [if_neg htime], rfl, fun h0 => by simp [h0], ?_, ?_⟩
    · constructor
      · intro ⟨hst, _⟩
        rw [h] at hst
        exact absurd hst (by decide)
      · intro hge
        exact absurd hge htime
    · intro hlt
      constructor
      · intro ⟨hst, _⟩
        rw [h] at hst
        exact absurd hst (by decide)
      · intro heq
        have : s.current_turn + 1 = s.max_turns := heq
        omega

/-- A bound, initialized PLAYING session, used to witness C5. -/
def sessionPlaying : GameSession :=
  { state := GameState.PLAYING, result := none, player_role := CharacterRole.DETECTIVE,
    scenario_killer := some "mara", has_turn_manager := true,
    current_turn := 0, max_turns := 30 }

/-- Witness for C5 at the concrete PLAYING session. -/
theorem C5_turn_counter_and_timeout_witness :
    sessionPlaying.state = GameState.PLAYING ∧
    sessionPlaying.has_turn_manager = true ∧
    (∃ s', do_turn sessionPlaying = Except.ok s' ∧
      s'.current_turn = sessionPlaying.current_turn + 1 ∧
      (sessionPlaying.current_turn = 0 → s'.current_turn = 1) ∧
      ((s'.state = GameState.RESULTS ∧ s'.result = some GameResult.TIMEOUT) ↔
        sessionPlaying.max_turns ≤ sessionPlaying.current_turn + 1) ∧
      (sessionPlaying.current_turn < sessionPlaying.max_turns →
        ((s'.state = GameState.RESULTS ∧ s'.result = some GameResult.TIMEOUT) ↔
          s'.current_turn = sessionPlaying.max_turns))) :=
  ⟨by decide, by decide,
   C5_turn_counter_and_timeout sessionPlaying (by decide) (by decide)⟩

/-- C7: with a scenario bound (an accusation presupposes a true killer
name), the accusation outcome is the pure matrix of (player role, accused
name, true killer name) — DETECTIVE/correct ↦ DETECTIVE_WINS,
DETECTIVE/other ↦ WRONG_ACCUSATION, any other (killer) player ↦
KILLER_WINS — and the session always ends in RESULTS. -/
theorem C7_accusation_matrix (s : GameSession) (suspect actual_killer : String)
    (hk : s.scenario_killer = some actual_killer) :
    (player_accuse s suspect).1.state = GameState.RESULTS ∧
    ∃ o : AccusationOutcome, (player_accuse s suspect).2 = Except.ok o ∧
      o.result =
        (if s.player_role = CharacterRole.DETECTIVE then
          (if suspect = actual_killer then GameResult.DETECTIVE_WINS
           else GameResult.WRONG_ACCUSATION)
         else GameResult.KILLER_WINS) ∧
      o.accused = suspect ∧ o.actual_killer = actual_killer ∧
      (player_accuse s suspect).1.result = some o.result := by
  by_cases hd : s.player_role = CharacterRole.DETECTIVE
  · by_cases hkk : suspect = actual_killer
    · have hacc : player_accuse s suspect =
          ({ s with state := GameState.RESULTS, result := some GameResult.DETECTIVE_WINS },
           Except.ok ⟨"correct", suspect, actual_killer, GameResult.DETECTIVE_WINS⟩) := by
        unfold player_accuse
        simp only [hk]
        rw [if_pos hd, if_pos hkk]
      rw [hacc, if_pos hd, if_pos hkk]
      exact ⟨rfl, _, rfl, rfl, rfl, rfl, rfl⟩
    · have hacc : player_accuse s suspect =
          ({ s with state := GameState.RESULTS, result := some GameResult.WRONG_ACCUSATION },
           Except.ok ⟨"wrong", suspect, actual_killer, GameResult.WRONG_ACCUSATION⟩) := by
        unfold player_accuse
        simp only [hk]
        rw [if_pos hd, if_neg hkk]
      rw [hacc, if_pos hd, if_neg hkk]
      exact ⟨rfl, _, rfl, rfl, rfl, rfl, rfl⟩
  · have hacc : player_accuse s suspect =
        ({ s with state := GameState.RESULTS, result := some GameResult.KILLER_WINS },
         Except.ok ⟨"killer_revealed", suspect, actual_killer, GameResult.KILLER_WINS⟩) := by
      unfold player_accuse
      simp only [hk]
      rw [if_neg hd]
    rw [hacc, if_neg hd]
    exact ⟨rfl, _, rfl, rfl, rfl, rfl, rfl⟩

/-- Witness for C7 at the bound RESULTS session: a detective accusing the
wrong suspect. -/
theorem C7_accusation_matrix_witness :
    sessionResults.scenario_killer = some "mara" ∧
    ((player_accuse sessionResults "bob").1.state = GameState.RESULTS ∧
    ∃ o : AccusationOutcome, (player_accuse sessionResults "bob").2 = Except.ok o ∧
      o.result =
        (if sessionResults.player_role = CharacterRole.DETECTIVE then
          (if "bob" = "mara" then GameResult.DETECTIVE_WINS
           else GameResult.WRONG_ACCUSATION)
         else GameResult.KILLER_WINS) ∧
      o.accused = "bob" ∧ o.actual_killer = "mara" ∧
      (player_accuse sessionResults "bob").1.result = some o.result) :=
  ⟨by decide, C7_accusation_matrix sessionResults "bob" "mara" (by decide)⟩

/-! ### Hybrid NPC turn resolution (`backend/game/turns.py`)

`_resolve_single_npc` builds a prompt whose `RECENT EVENTS HERE` block is
`recent_events[-5:]`; the decision oracle call plus JSON parse is the
`oracle` argument (`Except.error` = raised error / timeout / unparsable or
schema-invalid content, all caught by the inner `try`).  The per-location
loop of `_resolve_location_group` is a fold that threads the growing
event list and the shared `LocationManager`; `asyncio.gather` over the
location groups in `_resolve_all_npc_actions` is linearised in group-list
order (the spec guarantees no inter-group ordering). -/

/-- `turns.ActionType`. -/
inductive ActionType where
  | MOVE
  | TALK
  | INVESTIGATE
  | ACCUSE
  | WAIT
deriving DecidableEq

/-- The slice of `characters.Character` the turn loop reads. -/
structure Character where
  name : String
  assigned_role : CharacterRole
  is_player : Bool
deriving DecidableEq

/-- `turns.NPCAction`. -/
structure NPCAction where
  npc_name : String
  action_type : ActionType
  target : String
  dialogue : String
  internal_thought : String
  visible_to_player : Bool
deriving DecidableEq

/-- The parsed JSON decision returned by the oracle (§6's response
contract): action, target, dialogue, internal thought. -/
structure Decision where
  action : ActionType
  target : String
  dialogue : String
  internal_thought : String
deriving DecidableEq

/-- The decision request sent for one NPC: its identity, its group's
location, and the `recent_events[-5:]` slice included in the prompt. -/
structure DecisionRequest where
  npc_name : String
  location_id : String
  recent_events : List String
deriving DecidableEq

/-- Python `l[-5:]` (`l[-n:]`): the last `n` elements. -/
def takeLast {α : Type} (n : Nat) (l : List α) : List α :=
  l.drop (l.length - n)

/-- The request `_resolve_single_npc` sends: the prompt's recent-events
block is `recent_events[-5:]`. -/
def mk_request (npc_name location_id : String) (events : List String) : DecisionRequest :=
  { npc_name := npc_name, location_id := location_id, recent_events := takeLast 5 events }

/-- The `NPCAction(npc_name=..., action_type=WAIT)` fallback (all other
fields default). -/
def waitAction (npc_name : String) : NPCAction :=
  { npc_name := npc_name, action_type := ActionType.WAIT, target := "",
    dialogue := "", internal_thought := "", visible_to_player := false }

/-- `TurnManager._resolve_single_npc`: unknown character ⇒ WAIT; oracle
failure (error, timeout, unparsable or schema-invalid content) ⇒ WAIT with
no dialogue; a MOVE to an unknown location is downgraded to WAIT with empty
target but keeps the dialogue. -/
def resolve_single_npc (oracle : DecisionRequest → Except Unit Decision)
    (characters : List (String × Character)) (locs : LocationManager)
    (npc_name location_id : String) (recent_events : List String) : NPCAction :=
  match dictGet npc_name characters with
  | none => waitAction npc_name
  | some _ =>
    match oracle (mk_request npc_name location_id recent_events) with
    | Except.error _ => waitAction npc_name
    | Except.ok d =>
      if d.action = ActionType.MOVE ∧ (locs.get_location d.target).isNone then
        { npc_name := npc_name, action_type := ActionType.WAIT, target := "",
          dialogue := d.dialogue, internal_thought := d.internal_thought,
          visible_to_player := false }
      else
        { npc_name := npc_name, action_type := d.action, target := d.target,
          dialogue := d.dialogue, internal_thought := d.internal_thought,
          visible_to_player := false }

/-- The two event strings an action can add to
`recent_events_at_location`: the dialogue line, then the departure line. -/
def eventsOf (a : NPCAction) : List String :=
  (if a.dialogue ≠ "" then [a.npc_name ++ " said: \"" ++ a.dialogue ++ "\""] else []) ++
  (if a.action_type = ActionType.MOVE then [a.npc_name ++ " left toward " ++ a.target ++ "."]
   else [])

/-- The state threaded through one location group's sequential loop:
resolved actions, the requests sent so far, the growing
`recent_events_at_location` list, and the shared location manager. -/
structure GroupRunState where
  actions : List NPCAction
  requests : List DecisionRequest
  events : List String
  locs : LocationManager
deriving DecidableEq

/-- One iteration of the loop body of `_resolve_location_group`: skip
unknown and VICTIM characters; otherwise resolve the NPC, record its
action, add its dialogue/departure events, and apply its MOVE
immediately. -/
def group_step (oracle : DecisionRequest → Except Unit Decision)
    (characters : List (String × Character)) (location_id : String)
    (s : GroupRunState) (npc_name : String) : GroupRunState :=
  match dictGet npc_name characters with
  | none => s
  | some char =>
    if char.assigned_role = CharacterRole.VICTIM then s
    else
      let a := resolve_single_npc oracle characters s.locs npc_name location_id s.events
      let locs' :=
        if a.action_type = ActionType.MOVE then (s.locs.move_character npc_name a.target).2
        else s.locs
      { actions := s.actions ++ [a],
        requests := s.requests ++ [mk_request npc_name location_id s.events],
        events := s.events ++ eventsOf a,
        locs := locs' }

/-- `TurnManager._resolve_location_group` — sequential fold over the
group's members. -/
def resolve_location_group (oracle : DecisionRequest → Except Unit Decision)
    (characters : List (String × Character)) (location_id : String)
    (npc_names : List String) (s : GroupRunState) : GroupRunState :=
  npc_names.foldl (group_step oracle characters location_id) s

/-- The empty per-group state over a shared location manager. -/
def initState (locs : LocationManager) : GroupRunState :=
  { actions := [], requests := [], events := [], locs := locs }

/-- A group's run from a fresh per-group event list, as
`_resolve_location_group(loc_id, npc_names)` starts it. -/
def group_trace (oracle : DecisionRequest → Except Unit Decision)
    (characters : List (String × Character)) (location_id : String)
    (npc_names : List String) (locs : LocationManager) : GroupRunState :=
  resolve_location_group oracle characters location_id npc_names (initState locs)

/-- One location group's contribution inside `_resolve_all_npc_actions`:
run the group against the current shared location manager, extend the flat
action list. -/
def all_step (oracle : DecisionRequest → Except Unit Decision)
    (characters : List (String × Character))
    (acc : List NPCAction × LocationManager) (g : String × List String) :
    List NPCAction × LocationManager :=
  let s := group_trace oracle characters g.1 g.2 acc.2
  (acc.1 ++ s.actions, s.locs)

/-- `TurnManager._resolve_all_npc_actions`: resolve each location group and
flatten the actions in group order (the gather is linearised in
group-list order). -/
def resolve_all_npc_actions (oracle : DecisionRequest → Except Unit Decision)
    (characters : List (String × Character))
    (groups : List (String × List String)) (locs0 : LocationManager) :
    List NPCAction × LocationManager :=
  groups.foldl (all_step oracle characters) ([], locs0)

theorem run_nil (oracle : DecisionRequest → Except Unit Decision)
    (characters : List (String × Character)) (loc : String) (s : GroupRunState) :
    resolve_location_group oracle characters loc [] s = s := rfl

theorem run_cons (oracle : DecisionRequest → Except Unit Decision)
    (characters : List (String × Character)) (loc x : String)
    (xs : List String) (s : GroupRunState) :
    resolve_location_group oracle characters loc (x :: xs) s =
      resolve_location_group oracle characters loc xs
        (group_step oracle characters loc s x) := rfl

theorem run_append (oracle : DecisionRequest → Except Unit Decision)
    (characters : List (String × Character)) (loc : String)
    (l1 l2 : List String) (s : GroupRunState) :
    resolve_location_group oracle characters loc (l1 ++ l2) s =
      resolve_location_group oracle characters loc l2
        (resolve_location_group oracle characters loc l1 s) := by
  simp [resolve_location_group, List.foldl_append]

/-- The `actions`/`requests` components of the group loop are pure
accumulators: running from any starting lists only appends what a run from
empty lists (over the same events and locations) produces. -/
theorem group_run_acc (oracle : DecisionRequest → Except Unit Decision)
    (characters : List (String × Character)) (loc : String) :
    ∀ (names : List String) (a : List NPCAction) (r : List DecisionRequest)
      (e : List String) (L : LocationManager),
      resolve_location_group oracle characters loc names ⟨a, r, e, L⟩ =
        { actions := a ++ (resolve_location_group oracle characters loc names
            ⟨[], [], e, L⟩).actions,
          requests := r ++ (resolve_location_group oracle characters loc names
            ⟨[], [], e, L⟩).requests,
          events := (resolve_location_group oracle characters loc names ⟨[], [], e, L⟩).events,
          locs := (resolve_location_group oracle characters loc names ⟨[], [], e, L⟩).locs } := by
  intro names
  induction names with
  | nil =>
    intro a r e L
    simp [run_nil]
  | cons x xs ih =>
    intro a r e L
    rw [run_cons, run_cons]
    cases hx : dictGet x characters with
    | none =>
      have hstep : ∀ (a' : List NPCAction) (r' : List DecisionRequest),
          group_step oracle characters loc ⟨a', r', e, L⟩ x = ⟨a', r', e, L⟩ := by
        intro a' r'
        simp only [group_step, hx]
      rw [hstep, hstep]
      exact ih a r e L
    | some char =>
      by_cases hv : char.assigned_role = CharacterRole.VICTIM
      · have hstep : ∀ (a' : List NPCAction) (r' : List DecisionRequest),
            group_step oracle characters loc ⟨a', r', e, L⟩ x = ⟨a', r', e, L⟩ := by
          intro a' r'
          simp only [group_step, hx, if_pos hv]
        rw [hstep, hstep]
        exact ih a r e L
      · have hstep : ∀ (a' : List NPCAction) (r' : List DecisionRequest),
            group_step oracle characters loc ⟨a', r', e, L⟩ x =
              ⟨a' ++ [resolve_single_npc oracle characters L x loc e],
               r' ++ [mk_request x loc e],
               e ++ eventsOf (resolve_single_npc oracle characters L x loc e),
               if (resolve_single_npc oracle characters L x loc e).action_type =
                   ActionType.MOVE then
                 (LocationManager.move_character L x
                   (resolve_single_npc oracle characters L x loc e).target).2
               else L⟩ := by
          intro a' r'
          simp only [group_step, hx, if_neg hv]
        rw [hstep, hstep]
        simp only [List.nil_append]
        rw [ih (a ++ [resolve_single_npc oracle characters L x loc e])
              (r ++ [mk_request x loc e]) _ _,
            ih [resolve_single_npc oracle characters L x loc e] [mk_request x loc e] _ _]
        simp [List.append_assoc]

/-- `group_run_acc` for an arbitrary starting state. -/
theorem group_run_acc' (oracle : DecisionRequest → Except Unit Decision)
    (characters : List (String × Character)) (loc : String)
    (names : List String) (s : GroupRunState) :
    resolve_location_group oracle characters loc names s =
      { actions := s.actions ++ (resolve_location_group oracle characters loc names
          ⟨[], [], s.events, s.locs⟩).actions,
        requests := s.requests ++ (resolve_location_group oracle characters loc names
          ⟨[], [], s.events, s.locs⟩).requests,
        events := (resolve_location_group oracle characters loc names
          ⟨[], [], s.events, s.locs⟩).events,
        locs := (resolve_location_group oracle characters loc names
          ⟨[], [], s.events, s.locs⟩).locs } := by
  obtain ⟨a, r, e, L⟩ := s
  exact group_run_acc oracle characters loc names a r e L

/-- When the oracle fails on every request for `npc_name`, the group step
for that NPC records the WAIT-with-no-dialogue fallback and its request,
and changes neither the event list nor the location manager. -/
theorem group_step_fail {oracle : DecisionRequest → Except Unit Decision}
    {characters : List (String × Character)} {loc npc_name : String} {char : Character}
    (hc : dictGet npc_name characters = some char)
    (hnv : char.assigned_role ≠ CharacterRole.VICTIM)
    (hfail : ∀ req : DecisionRequest, req.npc_name = npc_name →
      oracle req = Except.error ())
    (s : GroupRunState) :
    group_step oracle characters loc s npc_name =
      { s with actions := s.actions ++ [waitAction npc_name],
               requests := s.requests ++ [mk_request npc_name loc s.events] } := by
  have hres : resolve_single_npc oracle characters s.locs npc_name loc s.events =
      waitAction npc_name := by
    unfold resolve_single_npc
    simp only [hc, hfail (mk_request npc_name loc s.events) rfl]
  simp only [group_step, hc, if_neg hnv, hres]
  simp [eventsOf, waitAction]

/-- The per-group event list is exactly the dialogue/departure events of the
actions resolved so far, in order. -/
def events_of_actions (acts : List NPCAction) : List String :=
  (acts.map eventsOf).flatten

theorem group_run_events (oracle : DecisionRequest → Except Unit Decision)
    (characters : List (String × Character)) (loc : String) :
    ∀ (names : List String) (s : GroupRunState),
      s.events = events_of_actions s.actions →
      (resolve_location_group oracle characters loc names s).events =
        events_of_actions (resolve_location_group oracle characters loc names s).actions := by
  intro names
  induction names with
  | nil =>
    intro s h
    exact h
  | cons x xs ih =>
    intro s h
    rw [run_cons]
    apply ih
    cases hx : dictGet x characters with
    | none =>
      simp only [group_step, hx]
      exact h
    | some char =>
      by_cases hv : char.assigned_role = CharacterRole.VICTIM
      · simp only [group_step, hx, if_pos hv]
        exact h
      · simp only [group_step, hx, if_neg hv]
        show s.events ++ _ = events_of_actions (s.actions ++ _)
        rw [h]
        simp [events_of_actions]

theorem takeLast_of_le {α : Type} {l : List α} (h : l.length ≤ 5) :
    takeLast 5 l = l := by
  unfold takeLast
  rw [Nat.sub_eq_zero_of_le h, List.drop_zero]

/-- The four NPCs, the two-room world and the always-talk-and-move oracle
used to refute the literal C3 and to witness its amendment. -/
def charsC : List (String × Character) :=
  [("n1", { name := "n1", assigned_role := CharacterRole.SUSPECT, is_player := false }),
   ("n2", { name := "n2", assigned_role := CharacterRole.SUSPECT, is_player := false }),
   ("n3", { name := "n3", assigned_role := CharacterRole.SUSPECT, is_player := false }),
   ("n4", { name := "n4", assigned_role := CharacterRole.SUSPECT, is_player := false })]

/-- Two connected rooms with the four NPCs in room `a`. -/
def locsC : LocationManager :=
  { locations :=
      [("a", { definition := { id := "a", name := "Room A", description := "",
                               connected_to := ["b"], clues_here := [] },
               characters_present := ["n1", "n2", "n3", "n4"] }),
       ("b", { definition := { id := "b", name := "Room B", description := "",
                               connected_to := ["a"], clues_here := [] },
               characters_present := [] })],
    character_locations := [("n1", "a"), ("n2", "a"), ("n3", "a"), ("n4", "a")] }

/-- An oracle that always says "hi" and moves to room `b`: every resolved
NPC produces two events (a dialogue line and a departure line). -/
def oracleC : DecisionRequest → Except Unit Decision :=
  fun _ => Except.ok { action := ActionType.MOVE, target := "b",
                       dialogue := "hi", internal_thought := "" }

/-- C3 counterexample: in a group of four NPCs each producing two events,
the fourth NPC's decision request (which carries `recent_events[-5:]`) no
longer contains the first NPC's dialogue event, although that event was
produced by an earlier character of the same group in the same turn. -/
theorem C3_causal_order_counterexample :
    ((group_trace oracleC charsC "a" ["n1", "n2", "n3", "n4"] locsC).requests.map
        DecisionRequest.npc_name) = ["n1", "n2", "n3", "n4"] ∧
    (∃ a ∈ (group_trace oracleC charsC "a" ["n1", "n2", "n3", "n4"] locsC).actions,
      a.npc_name = "n1" ∧ "n1 said: \"hi\"" ∈ eventsOf a) ∧
    (∀ r ∈ (group_trace oracleC charsC "a" ["n1", "n2", "n3", "n4"] locsC).requests,
      r.npc_name = "n4" → "n1 said: \"hi\"" ∉ r.recent_events) := by
  decide

/-- C3 (amended): the decision request sent to an NPC resolved after the
prefix `pre` of its group carries exactly the last five entries of the
event list produced by the group's earlier characters this turn — all of
them when at most five exist — and that event list consists precisely of
the dialogue/departure events of the earlier characters' actions, never of
events from another location's group. -/
theorem C3_causal_order_amended (oracle : DecisionRequest → Except Unit Decision)
    (characters : List (String × Character)) (loc : String) (L : LocationManager)
    (pre : List String) (n : String) (char : Character)
    (hc : dictGet n characters = some char)
    (hnv : char.assigned_role ≠ CharacterRole.VICTIM) :
    (group_trace oracle characters loc (pre ++ [n]) L).requests =
      (group_trace oracle characters loc pre L).requests ++
        [mk_request n loc (group_trace oracle characters loc pre L).events] ∧
    (mk_request n loc (group_trace oracle characters loc pre L).events).recent_events =
      takeLast 5 (group_trace oracle characters loc pre L).events ∧
    (group_trace oracle characters loc pre L).events =
      events_of_actions (group_trace oracle characters loc pre L).actions ∧
    takeLast 5 (group_trace oracle characters loc pre L).events <:+
      (group_trace oracle characters loc pre L).events ∧
    ((group_trace oracle characters loc pre L).events.length ≤ 5 →
      (mk_request n loc (group_trace oracle characters loc pre L).events).recent_events =
        (group_trace oracle characters loc pre L).events) := by
  refine ⟨?_, rfl, ?_, List.drop_suffix _ _, fun h => takeLast_of_le h⟩
  · show (resolve_location_group oracle characters loc (pre ++ [n]) (initState L)).requests = _
    rw [run_append, run_cons, run_nil]
    simp only [group_step, hc, if_neg hnv]
    rfl
  · exact group_run_events oracle characters loc pre (initState L) rfl

/-- The fourth member of the concrete group. -/
def charN4 : Character :=
  { name := "n4", assigned_role := CharacterRole.SUSPECT, is_player := false }

/-- Witness for the amended C3: the fourth NPC of the concrete group. -/
theorem C3_causal_order_amended_witness :
    dictGet "n4" charsC = some charN4 ∧
    ((group_trace oracleC charsC "a" (["n1", "n2", "n3"] ++ ["n4"]) locsC).requests =
      (group_trace oracleC charsC "a" ["n1", "n2", "n3"] locsC).requests ++
        [mk_request "n4" "a" (group_trace oracleC charsC "a" ["n1", "n2", "n3"] locsC).events] ∧
    (mk_request "n4" "a"
        (group_trace oracleC charsC "a" ["n1", "n2", "n3"] locsC).events).recent_events =
      takeLast 5 (group_trace oracleC charsC "a" ["n1", "n2", "n3"] locsC).events ∧
    (group_trace oracleC charsC "a" ["n1", "n2", "n3"] locsC).events =
      events_of_actions (group_trace oracleC charsC "a" ["n1", "n2", "n3"] locsC).actions ∧
    takeLast 5 (group_trace oracleC charsC "a" ["n1", "n2", "n3"] locsC).events <:+
      (group_trace oracleC charsC "a" ["n1", "n2", "n3"] locsC).events ∧
    ((group_trace oracleC charsC "a" ["n1", "n2", "n3"] locsC).events.length ≤ 5 →
      (mk_request "n4" "a"
          (group_trace oracleC charsC "a" ["n1", "n2", "n3"] locsC).events).recent_events =
        (group_trace oracleC charsC "a" ["n1", "n2", "n3"] locsC).events)) :=
  ⟨by decide,
   C3_causal_order_amended oracleC charsC "a" locsC ["n1", "n2", "n3"] "n4" charN4
     (by decide) (by decide)⟩

theorem resolve_all_nil (oracle : DecisionRequest → Except Unit Decision)
    (characters : List (String × Character)) (L : LocationManager) :
    resolve_all_npc_actions oracle characters [] L = ([], L) := rfl

/-- The flat action list of `_resolve_all_npc_actions` is a pure
accumulator over the group fold. -/
theorem resolve_all_acc (oracle : DecisionRequest → Except Unit Decision)
    (characters : List (String × Character)) :
    ∀ (gs : List (String × List String)) (a : List NPCAction) (L : LocationManager),
      gs.foldl (all_step oracle characters) (a, L) =
        (a ++ (resolve_all_npc_actions oracle characters gs L).1,
         (resolve_all_npc_actions oracle characters gs L).2) := by
  intro gs
  induction gs with
  | nil =>
    intro a L
    simp [resolve_all_npc_actions]
  | cons g rest ih =>
    intro a L
    show rest.foldl (all_step oracle characters) (all_step oracle characters (a, L) g) = _
    have hg : all_step oracle characters (a, L) g =
        (a ++ (group_trace oracle characters g.1 g.2 L).actions,
         (group_trace oracle characters g.1 g.2 L).locs) := rfl
    rw [hg, ih]
    have hg0 : resolve_all_npc_actions oracle characters (g :: rest) L =
        rest.foldl (all_step oracle characters)
          ((group_trace oracle characters g.1 g.2 L).actions,
           (group_trace oracle characters g.1 g.2 L).locs) := by
      show rest.foldl (all_step oracle characters) (all_step oracle characters ([], L) g) = _
      have : all_step oracle characters ([], L) g =
          ((group_trace oracle characters g.1 g.2 L).actions,
           (group_trace oracle characters g.1 g.2 L).locs) := by
        show ([] ++ (group_trace oracle characters g.1 g.2 L).actions, _) = _
        rw [List.nil_append]
      rw [this]
    rw [hg0, ih]
    simp [List.append_assoc]

theorem resolve_all_append (oracle : DecisionRequest → Except Unit Decision)
    (characters : List (String × Character)) (gs1 gs2 : List (String × List String))
    (L : LocationManager) :
    resolve_all_npc_actions oracle characters (gs1 ++ gs2) L =
      ((resolve_all_npc_actions oracle characters gs1 L).1 ++
        (resolve_all_npc_actions oracle characters gs2
          (resolve_all_npc_actions oracle characters gs1 L).2).1,
       (resolve_all_npc_actions oracle characters gs2
         (resolve_all_npc_actions oracle characters gs1 L).2).2) := by
  show (gs1 ++ gs2).foldl (all_step oracle characters) ([], L) = _
  rw [List.foldl_append]
  show gs2.foldl (all_step oracle characters)
      (resolve_all_npc_actions oracle characters gs1 L) = _
  rw [← Prod.mk.eta (p := resolve_all_npc_actions oracle characters gs1 L),
    resolve_all_acc]

theorem resolve_all_cons (oracle : DecisionRequest → Except Unit Decision)
    (characters : List (String × Character)) (g : String × List String)
    (gs : List (String × List String)) (L : LocationManager) :
    resolve_all_npc_actions oracle characters (g :: gs) L =
      ((group_trace oracle characters g.1 g.2 L).actions ++
        (resolve_all_npc_actions oracle characters gs
          (group_trace oracle characters g.1 g.2 L).locs).1,
       (resolve_all_npc_actions oracle characters gs
         (group_trace oracle characters g.1 g.2 L).locs).2) := by
  show gs.foldl (all_step oracle characters) (all_step oracle characters ([], L) g) = _
  have hg : all_step oracle characters ([], L) g =
      ((group_trace oracle characters g.1 g.2 L).actions,
       (group_trace oracle characters g.1 g.2 L).locs) := by
    show ([] ++ (group_trace oracle characters g.1 g.2 L).actions, _) = _
    rw [List.nil_append]
  rw [hg, resolve_all_acc]

/-- C4: if the oracle fails (error / timeout / unparsable content) on every
request for NPC `n`, then in the turn's full resolution `n`'s recorded
action is the WAIT-with-no-dialogue fallback, while the final location
state and every other NPC's resolved action — in `n`'s own group and in
every other group — are exactly what they are in the run in which `n` is
absent: a single NPC's failure aborts neither its group nor the turn. -/
theorem C4_failure_isolation (oracle : DecisionRequest → Except Unit Decision)
    (characters : List (String × Character))
    (G1 G2 : List (String × List String)) (loc : String) (pre post : List String)
    (n : String) (locs0 : LocationManager) (char : Character)
    (hc : dictGet n characters = some char)
    (hnv : char.assigned_role ≠ CharacterRole.VICTIM)
    (hfail : ∀ req : DecisionRequest, req.npc_name = n →
      oracle req = Except.error ()) :
    (resolve_all_npc_actions oracle characters
        (G1 ++ (loc, pre ++ n :: post) :: G2) locs0).2 =
      (resolve_all_npc_actions oracle characters
        (G1 ++ (loc, pre ++ post) :: G2) locs0).2 ∧
    ∃ B : List NPCAction,
      (resolve_all_npc_actions oracle characters
          (G1 ++ (loc, pre ++ n :: post) :: G2) locs0).1 =
        (resolve_all_npc_actions oracle characters (G1 ++ [(loc, pre)]) locs0).1 ++
          waitAction n :: B ∧
      (resolve_all_npc_actions oracle characters
          (G1 ++ (loc, pre ++ post) :: G2) locs0).1 =
        (resolve_all_npc_actions oracle characters (G1 ++ [(loc, pre)]) locs0).1 ++ B := by
  set L1 := (resolve_all_npc_actions oracle characters G1 locs0).2 with hL1
  set t := resolve_location_group oracle characters loc pre (initState L1) with ht
  set u := resolve_location_group oracle characters loc post
    (⟨[], [], t.events, t.locs⟩ : GroupRunState) with hu
  have hMidFull : group_trace oracle characters loc (pre ++ n :: post) L1 =
      { actions := t.actions ++ waitAction n :: u.actions,
        requests := t.requests ++ mk_request n loc t.events :: u.requests,
        events := u.events, locs := u.locs } := by
    show resolve_location_group oracle characters loc (pre ++ n :: post) (initState L1) = _
    rw [show pre ++ n :: post = (pre ++ [n]) ++ post by simp, run_append, run_append,
      run_cons, run_nil, ← ht, group_step_fail hc hnv hfail t]
    rw [group_run_acc']
    simp [← hu, List.append_assoc]
  have hMidSkip : group_trace oracle characters loc (pre ++ post) L1 =
      { actions := t.actions ++ u.actions,
        requests := t.requests ++ u.requests,
        events := u.events, locs := u.locs } := by
    show resolve_location_group oracle characters loc (pre ++ post) (initState L1) = _
    rw [run_append, ← ht, group_run_acc']
  have hMidPre : group_trace oracle characters loc pre L1 = t := ht.symm
  constructor
  · rw [resolve_all_append, resolve_all_append, resolve_all_cons, resolve_all_cons,
      ← hL1, hMidFull, hMidSkip]
  · refine ⟨u.actions ++ (resolve_all_npc_actions oracle characters G2 u.locs).1, ?_, ?_⟩
    · rw [resolve_all_append, resolve_all_append, resolve_all_cons, resolve_all_cons,
        ← hL1, hMidFull, hMidPre]
      simp [resolve_all_nil, List.append_assoc]
    · rw [resolve_all_append, resolve_all_append, resolve_all_cons, resolve_all_cons,
        ← hL1, hMidSkip, hMidPre]
      simp [resolve_all_nil, List.append_assoc]

/-- An oracle that fails for `"n2"` and answers a quiet WAIT for everyone
else. -/
def oracleW : DecisionRequest → Except Unit Decision :=
  fun req =>
    if req.npc_name = "n2" then Except.error ()
    else Except.ok { action := ActionType.WAIT, target := "",
                     dialogue := "all quiet", internal_thought := "" }

/-- The second member of the concrete group. -/
def charN2 : Character :=
  { name := "n2", assigned_role := CharacterRole.SUSPECT, is_player := false }

/-- Witness for C4: `n2` fails in group `a` while `n3` sits in group `b`. -/
theorem C4_failure_isolation_witness :
    dictGet "n2" charsC = some charN2 ∧
    (∀ req : DecisionRequest, req.npc_name = "n2" → oracleW req = Except.error ()) ∧
    ((resolve_all_npc_actions oracleW charsC
        ([] ++ ("a", ["n1"] ++ "n2" :: []) :: [("b", ["n3"])]) locsC).2 =
      (resolve_all_npc_actions oracleW charsC
        ([] ++ ("a", ["n1"] ++ ([] : List String)) :: [("b", ["n3"])]) locsC).2 ∧
    ∃ B : List NPCAction,
      (resolve_all_npc_actions oracleW charsC
          ([] ++ ("a", ["n1"] ++ "n2" :: []) :: [("b", ["n3"])]) locsC).1 =
        (resolve_all_npc_actions oracleW charsC ([] ++ [("a", ["n1"])]) locsC).1 ++
          waitAction "n2" :: B ∧
      (resolve_all_npc_actions oracleW charsC
          ([] ++ ("a", ["n1"] ++ ([] : List String)) :: [("b", ["n3"])]) locsC).1 =
        (resolve_all_npc_actions oracleW charsC ([] ++ [("a", ["n1"])]) locsC).1 ++ B) :=
  ⟨by decide, fun req h => by simp [oracleW, h],
   C4_failure_isolation oracleW charsC [] [("b", ["n3"])] "a" ["n1"] [] "n2" locsC
     charN2 (by decide) (by decide) (fun req h => by simp [oracleW, h])⟩

/-! ### Knowledge partition (`backend/game/knowledge.py`) -/

/-- `.value` of a `CharacterRole`. -/
def CharacterRole.value : CharacterRole → String
  | .DETECTIVE => "detective"
  | .KILLER => "killer"
  | .SUSPECT => "suspect"
  | .WITNESS => "witness"
  | .VICTIM => "victim"
  | .RED_HERRING => "red_herring"

/-- `knowledge.CharacterKnowledgeState`. -/
structure CharacterKnowledgeState where
  character_name : String
  role : CharacterRole
  alibi : String
  true_whereabouts : String
  known_clue_ids : List String
  secrets : List String
  attitude : String
  suspicions : String
  witnessed_events : List String
  conversations_had : List String
  information_received : List String
deriving DecidableEq

/-- `KnowledgeManager` — the `_states` dict and `_killer_name`. -/
structure KnowledgeManager where
  states : List (String × CharacterKnowledgeState)
  killer_name : String
deriving DecidableEq

/-- The dict returned by `get_player_visible_info` (`known_suspicions` is
created and never filled by the source). -/
structure PlayerVisibleInfo where
  role : String
  known_alibis : List (String × String)
  known_suspicions : List (String × String)
  you_are_the_killer : Option Bool
  your_mission : Option String
deriving DecidableEq

/-- `KnowledgeManager.get_player_visible_info` — a read-only view: an NPC's
alibi is listed exactly when `state.conversations_had` is (truthy, i.e.)
nonempty; a KILLER player additionally gets the private flag and mission
line.  The source mutates nothing, so the embedding is a pure function of
the manager. -/
def get_player_visible_info (m : KnowledgeManager) (player_role : CharacterRole) :
    PlayerVisibleInfo :=
  { role := player_role.value,
    known_alibis :=
      (m.states.filter (fun p => !p.2.conversations_had.isEmpty)).map
        (fun p => (p.1, p.2.alibi)),
    known_suspicions := [],
    you_are_the_killer :=
      if player_role = CharacterRole.KILLER then some true else none,
    your_mission :=
      if player_role = CharacterRole.KILLER then
        some "Avoid detection. Deflect suspicion onto others."
      else none }

/-- C9: `get_player_visible_info` lists an NPC's alibi exactly when that
NPC's knowledge state has at least one recorded conversation, every listed
alibi belongs to such an NPC, and the private killer flag and mission are
present exactly for the KILLER role. -/
theorem C9_player_visible_info (m : KnowledgeManager) (player_role : CharacterRole)
    (hnd : (m.states.map Prod.fst).Nodup) :
    (∀ name st, dictGet name m.states = some st →
      ((name, st.alibi) ∈ (get_player_visible_info m player_role).known_alibis ↔
        st.conversations_had ≠ [])) ∧
    (∀ p ∈ (get_player_visible_info m player_role).known_alibis,
      ∃ st, dictGet p.1 m.states = some st ∧ st.alibi = p.2 ∧
        st.conversations_had ≠ []) ∧
    (player_role = CharacterRole.KILLER →
      (get_player_visible_info m player_role).you_are_the_killer = some true ∧
      (get_player_visible_info m player_role).your_mission =
        some "Avoid detection. Deflect suspicion onto others.") ∧
    (player_role ≠ CharacterRole.KILLER →
      (get_player_visible_info m player_role).you_are_the_killer = none ∧
      (get_player_visible_info m player_role).your_mission = none) := by
  refine ⟨?_, ?_, ?_, ?_⟩
  · intro name st hget
    constructor
    · intro hmem
      simp only [get_player_visible_info, List.mem_map, List.mem_filter] at hmem
      obtain ⟨p, ⟨hps, hpq⟩, hfp⟩ := hmem
      obtain ⟨hp1, -⟩ := Prod.mk.injEq .. ▸ hfp
      have hsome : dictGet name m.states = some p.2 := by
        rw [← hp1]
        exact dictGet_eq_of_mem_nodup hnd (by
          have : p = (p.1, p.2) := rfl
          rw [← this]
          exact hps)
      rw [hget] at hsome
      obtain rfl : st = p.2 := Option.some.inj hsome
      simpa using hpq
    · intro hne
      simp only [get_player_visible_info, List.mem_map, List.mem_filter]
      refine ⟨(name, st), ⟨dictGet_mem hget, by simpa using hne⟩, rfl⟩
  · intro p hp
    simp only [get_player_visible_info, List.mem_map, List.mem_filter] at hp
    obtain ⟨q, ⟨hqs, hqq⟩, hfq⟩ := hp
    obtain ⟨hq1, hq2⟩ := Prod.mk.injEq .. ▸ hfq
    refine ⟨q.2, ?_, hq2, by simpa using hqq⟩
    rw [← hq1]
    exact dictGet_eq_of_mem_nodup hnd (by
      have : q = (q.1, q.2) := rfl
      rw [← this]
      exact hqs)
  · intro hk
    simp [get_player_visible_info, hk]
  · intro hk
    simp [get_player_visible_info, hk]

/-- A knowledge manager with one talked-to NPC and one never-asked NPC. -/
def kmDemo : KnowledgeManager :=
  { states :=
      [("bob", { character_name := "bob", role := CharacterRole.SUSPECT,
                 alibi := "was polishing silver", true_whereabouts := "the cellar",
                 known_clue_ids := [], secrets := [], attitude := "", suspicions := "",
                 witnessed_events := [],
                 conversations_had := ["Spoke with player: asked about the night"],
                 information_received := [] }),
       ("eve", { character_name := "eve", role := CharacterRole.SUSPECT,
                 alibi := "was reading upstairs", true_whereabouts := "",
                 known_clue_ids := [], secrets := [], attitude := "", suspicions := "",
                 witnessed_events := [], conversations_had := [],
                 information_received := [] })],
    killer_name := "mara" }

/-- Witness for C9 at the concrete manager `kmDemo` with a KILLER player. -/
theorem C9_player_visible_info_witness :
    (kmDemo.states.map Prod.fst).Nodup ∧
    ((∀ name st, dictGet name kmDemo.states = some st →
      ((name, st.alibi) ∈
          (get_player_visible_info kmDemo CharacterRole.KILLER).known_alibis ↔
        st.conversations_had ≠ [])) ∧
    (∀ p ∈ (get_player_visible_info kmDemo CharacterRole.KILLER).known_alibis,
      ∃ st, dictGet p.1 kmDemo.states = some st ∧ st.alibi = p.2 ∧
        st.conversations_had ≠ []) ∧
    (CharacterRole.KILLER = CharacterRole.KILLER →
      (get_player_visible_info kmDemo CharacterRole.KILLER).you_are_the_killer =
        some true ∧
      (get_player_visible_info kmDemo CharacterRole.KILLER).your_mission =
        some "Avoid detection. Deflect suspicion onto others.") ∧
    (CharacterRole.KILLER ≠ CharacterRole.KILLER →
      (get_player_visible_info kmDemo CharacterRole.KILLER).you_are_the_killer = none ∧
      (get_player_visible_info kmDemo CharacterRole.KILLER).your_mission = none)) :=
  ⟨by decide, C9_player_visible_info kmDemo CharacterRole.KILLER (by decide)⟩

end MurderMystery
